import Mathlib

/-!
Verification of the NEAT genome module (`genome.py`): gene representation,
the five mutation operators, the speciation-distance metric and crossover.

The `Network` / `NodeGene` / `ConnectionGene` collaborators live in
`network.py` / `gene.py`, which are not part of the sources; their primitives
are modelled from the specification (marked "Modelled from the spec" below).
Everything else is a direct shallow embedding of `genome.py`.

Randomness is threaded explicitly: every random draw the Python code makes
is replaced by a value taken from an oracle argument, so all theorems
quantify over every possible random outcome.  Python exceptions are
modelled with `Except String`.
-/

inductive NodeType where
  | INPUT : NodeType
  | OUTPUT : NodeType
  | HIDDEN : NodeType
deriving DecidableEq, Repr

/-- Modelled from the spec (`gene.py` is not in the sources): a node gene
carries its integer index, its type and a real-valued bias. -/
structure NodeGene where
  index : ℤ
  ntype : NodeType
  bias : ℚ
deriving DecidableEq, Repr

/-- Modelled from the spec (`gene.py` is not in the sources): a connection
gene carries start/end node indices, a weight, an innovation number and an
enabled flag. -/
structure ConnectionGene where
  start : ℤ
  «end» : ℤ
  weight : ℚ
  innov : ℕ
  enabled : Bool
deriving DecidableEq, Repr

/-- Modelled from the spec: the Python three-argument constructor
`ConnectionGene(start, end, i)` builds an enabled gene; its weight is
assigned later by `Network.add_conn`. -/
def mkConnGene (s e : ℤ) (i : ℕ) : ConnectionGene :=
  { start := s, «end» := e, weight := 0, innov := i, enabled := true }

def dfltConn : ConnectionGene := mkConnGene 0 0 0

def dfltNode : NodeGene := { index := 0, ntype := NodeType.HIDDEN, bias := 0 }

/-- Modelled from the spec (`network.py` is not in the sources): a network
topology holds its I/O shape, its activation identity and the ordered node
and connection gene lists. -/
structure Network where
  num_in : ℕ
  num_out : ℕ
  activation : String
  node_genes : List NodeGene
  conn_genes : List ConnectionGene
deriving DecidableEq, Repr

/-- Modelled from the spec: `nodes` exposes one entry per node gene
(`genome.py` uses both `network.nodes` and `network.node_genes` for
counting). -/
def Network.nodes (n : Network) : List NodeGene := n.node_genes

/-- Modelled from the spec: whether the topology has a node with the given
index. -/
def Network.has_node (n : Network) (idx : ℤ) : Bool :=
  n.node_genes.any (fun nd => decide (nd.index = idx))

/-- Modelled from the spec: whether a connection with the given endpoints
already exists. -/
def Network.has_conn (n : Network) (s e : ℤ) : Bool :=
  n.conn_genes.any (fun g => decide (g.start = s) && decide (g.«end» = e))

/-- Modelled from the spec: the connection gene with the given innovation
number, if present. -/
def Network.get_conn_gene (n : Network) (i : ℕ) : Option ConnectionGene :=
  n.conn_genes.find? (fun g => decide (g.innov = i))

/-- Modelled from the spec: whether the topology has a connection gene with
the given innovation number. -/
def Network.has_weight (n : Network) (i : ℕ) : Bool :=
  (n.get_conn_gene i).isSome

/-- Modelled from the spec: the weight of a connection gene. -/
def Network.get_weight (n : Network) (g : ConnectionGene) : ℚ := g.weight

/-- Modelled from the spec: `(min_innovation, max_innovation)` present in
this topology; unspecified on an empty connection list. -/
def Network.get_weight_innov_interval (n : Network) : ℕ × ℕ :=
  match n.conn_genes.map (fun g => g.innov) with
  | [] => (0, 0)
  | x :: xs => (xs.foldl min x, xs.foldl max x)

/-- Modelled from the spec: disable the connection gene at a list position. -/
def Network.disable_conn (n : Network) (i : ℕ) : Network :=
  match n.conn_genes[i]? with
  | some g => { n with conn_genes := n.conn_genes.set i { g with enabled := false } }
  | none => n

/-- Modelled from the spec: enable the connection gene at a list position. -/
def Network.enable_conn (n : Network) (i : ℕ) : Network :=
  match n.conn_genes[i]? with
  | some g => { n with conn_genes := n.conn_genes.set i { g with enabled := true } }
  | none => n

/-- Modelled from the spec: overwrite the weight of the connection gene at a
list position. -/
def Network.set_weight (n : Network) (i : ℕ) (w : ℚ) : Network :=
  match n.conn_genes[i]? with
  | some g => { n with conn_genes := n.conn_genes.set i { g with weight := w } }
  | none => n

/-- Modelled from the spec: append a connection gene, its weight freshly
drawn (the drawn value is the explicit argument `w`). -/
def Network.add_conn (n : Network) (g : ConnectionGene) (w : ℚ) : Network :=
  { n with conn_genes := n.conn_genes ++ [{ g with weight := w }] }

/-- Modelled from the spec: allocate the next hidden node; under the dense
creation-order layout its index is the current node count. -/
def Network.gen_node (n : Network) : Network :=
  { n with node_genes := n.node_genes ++
      [{ index := (n.node_genes.length : ℤ), ntype := NodeType.HIDDEN, bias := 0 }] }

/-- Modelled from the spec: replace the topology wholesale. -/
def Network.load_structure (n : Network) (nodes : List NodeGene)
    (conns : List ConnectionGene) : Network :=
  { n with node_genes := nodes, conn_genes := conns }

/-- Modelled from the spec: the number of node genes present in exactly one
of the two topologies. -/
def Network.get_num_unmatched_node_genes (n m : Network) : ℕ :=
  (n.node_genes.filter (fun nd => !(m.has_node nd.index))).length +
  (m.node_genes.filter (fun nd => !(n.has_node nd.index))).length

structure Genome where
  species : ℤ
  fitness : ℚ
  network : Network
deriving DecidableEq, Repr

def Genome.create_from_network (net : Network) : Genome :=
  { species := 0, fitness := 0, network := net }

structure Configs where
  weight_init_std : ℚ
  threshold_init_std : ℚ
  prob_add_node : ℚ
  add_conn_prob : ℚ
  change_weight_prob : ℚ
  threshold_change_prob : ℚ
  toggle_gene_prob : ℚ
  unmatched_genes_coeff : ℚ
  weight_diff_coeff : ℚ
  compatibility_threshold : ℚ
deriving DecidableEq, Repr

/-- `np.random.randint(low=0, high=n)`: a draw from `[0, n)`; raises
`ValueError` when the range is empty. -/
def np_randint (n : ℕ) (r : ℕ) : Except String ℕ :=
  if n = 0 then Except.error "ValueError: low >= high" else Except.ok (r % n)

/-- `random.randint(a, b)`: an inclusive draw from `[a, b]`; raises
`ValueError` when `a > b`. -/
def py_randint (a b : ℤ) (r : ℕ) : Except String ℤ :=
  if b < a then Except.error "ValueError: empty range for randrange"
  else Except.ok (a + (r : ℤ) % (b - a + 1))

/-- `random.choice` on a list of intervals. -/
def py_choice (l : List (ℤ × ℤ)) (r : ℕ) : Except String (ℤ × ℤ) :=
  match l with
  | [] => Except.error "IndexError: list index out of range"
  | x :: xs => Except.ok ((x :: xs).getD (r % (x :: xs).length) x)

/-- The double loop of `are_same_species` (genome.py lines 30-35): fold over
both connection-gene lists accumulating the signed weight-difference sum and
the number of matched innovation pairs. -/
def speciesDiffN (self other : Genome) : ℚ × ℕ :=
  self.network.conn_genes.foldl
    (fun st g1 =>
      other.network.conn_genes.foldl
        (fun st2 g2 =>
          if g1.innov = g2.innov then
            (st2.1 + (self.network.get_weight g1 - other.network.get_weight g2), st2.2 + 1)
          else st2)
        st)
    (0, 0)

/-- `Genome.are_same_species` (genome.py lines 22-44).  The division
`diff /= n` is wrapped in try/except, so `n = 0` leaves `diff` untouched;
the division by `N` is not protected. -/
def Genome.are_same_species (self other : Genome) (cfg : Configs) : Except String Bool :=
  let unmatched_genes := self.network.get_num_unmatched_node_genes other.network
  let dn := speciesDiffN self other
  let diff := if dn.2 = 0 then dn.1 else dn.1 / (dn.2 : ℚ)
  let self_num_genes := self.network.conn_genes.length + self.network.nodes.length
  let other_num_genes := other.network.conn_genes.length + other.network.nodes.length
  let N := max self_num_genes other_num_genes
  if N = 0 then Except.error "ZeroDivisionError: division by zero"
  else Except.ok (decide (cfg.unmatched_genes_coeff * (unmatched_genes : ℚ) / (N : ℚ)
      + cfg.weight_diff_coeff * diff < cfg.compatibility_threshold))

/-- The distance computation as the claim words it (compare with
`Genome.are_same_species`): absolute weight differences, and unmatched genes
counted on connection innovation numbers as in the section-8 scenario. -/
def are_same_species_claimed (self other : Genome) (cfg : Configs) : Except String Bool :=
  let unmatched_genes :=
    (self.network.conn_genes.filter (fun g => !(other.network.has_weight g.innov))).length +
    (other.network.conn_genes.filter (fun g => !(self.network.has_weight g.innov))).length
  let dn := self.network.conn_genes.foldl
    (fun st g1 =>
      other.network.conn_genes.foldl
        (fun st2 g2 =>
          if g1.innov = g2.innov then
            (st2.1 + |self.network.get_weight g1 - other.network.get_weight g2|, st2.2 + 1)
          else st2)
        st)
    ((0 : ℚ), (0 : ℕ))
  let diff := if dn.2 = 0 then dn.1 else dn.1 / (dn.2 : ℚ)
  let self_num_genes := self.network.conn_genes.length + self.network.nodes.length
  let other_num_genes := other.network.conn_genes.length + other.network.nodes.length
  let N := max self_num_genes other_num_genes
  if N = 0 then Except.error "ZeroDivisionError: division by zero"
  else Except.ok (decide (cfg.unmatched_genes_coeff * (unmatched_genes : ℚ) / (N : ℚ)
      + cfg.weight_diff_coeff * diff < cfg.compatibility_threshold))

/-- `Genome.mutate_add_node` (genome.py lines 47-67): pick a random
connection `a -> b`, disable it, allocate a fresh hidden node `c`, then add
`a -> c` and `c -> b` (weights `w1`, `w2` stand for the two Gaussian draws
made by `network.add_conn`).  Returns the two new `(start, end)` pairs, or
`none` when there are no connections. -/
def Genome.mutate_add_node (g : Genome) (cfg : Configs) (r : ℕ) (w1 w2 : ℚ) :
    Except String (Genome × Option ((ℤ × ℤ) × (ℤ × ℤ))) :=
  if g.network.conn_genes.length = 0 then Except.ok (g, none)
  else
    match np_randint g.network.conn_genes.length r with
    | Except.error msg => Except.error msg
    | Except.ok conn_idx =>
      let conn := g.network.conn_genes.getD conn_idx dfltConn
      let net1 := g.network.disable_conn conn_idx
      let net2 := net1.gen_node
      let new_node_idx := (net2.node_genes.getLastD dfltNode).index
      let first_conn := mkConnGene conn.start new_node_idx 1
      let net3 := net2.add_conn first_conn w1
      let net4 := net3.add_conn (mkConnGene new_node_idx conn.«end» 1) w2
      Except.ok ({ g with network := net4 },
        some ((conn.start, new_node_idx), (new_node_idx, conn.«end»)))

/-- The retry loop of `mutate_add_conn` (genome.py lines 91-97), with fuel
equal to the remaining attempts.  Also returns the number of candidate
draws actually performed.  Oracle positions `k`, `k+1`, `k+2` feed the
start draw, the interval choice and the end draw of one attempt. -/
def add_conn_loop (net : Network) (sI : ℤ × ℤ) (eIs : List (ℤ × ℤ)) (o : ℕ → ℕ) :
    ℕ → ℕ → Except String (Option (ℤ × ℤ) × ℕ)
  | _, 0 => Except.ok (none, 0)
  | k, fuel + 1 =>
    match py_randint sI.1 sI.2 (o k) with
    | Except.error msg => Except.error msg
    | Except.ok start_idx =>
      match py_choice eIs (o (k + 1)) with
      | Except.error msg => Except.error msg
      | Except.ok itv =>
        match py_randint itv.1 itv.2 (o (k + 2)) with
        | Except.error msg => Except.error msg
        | Except.ok end_idx =>
          if !(net.has_conn start_idx end_idx) && decide (start_idx > end_idx) then
            Except.ok (some (start_idx, end_idx), 1)
          else
            match add_conn_loop net sI eIs o (k + 3) fuel with
            | Except.error msg => Except.error msg
            | Except.ok res => Except.ok (res.1, res.2 + 1)

/-- The start-index interval of `mutate_add_conn` (genome.py line 80):
non-output nodes. -/
def add_conn_sI (g : Genome) : ℤ × ℤ :=
  ((g.network.num_out : ℤ), (g.network.node_genes.length : ℤ) - 1)

/-- The end-index intervals of `mutate_add_conn` (genome.py lines 83-89):
they exclude the input nodes, and the hidden interval exists only when the
last node gene is hidden. -/
def add_conn_eIs (g : Genome) (last : NodeGene) : List (ℤ × ℤ) :=
  if last.ntype = NodeType.HIDDEN then
    [(0, (g.network.num_out : ℤ) - 1),
     (((g.network.num_in + g.network.num_out : ℕ) : ℤ), (g.network.nodes.length : ℤ) - 1)]
  else
    [(0, (g.network.num_out : ℤ) - 1)]

/-- `Genome.mutate_add_conn` (genome.py lines 70-104): draw candidate
`(start, end)` pairs (`start` over non-output nodes, `end` excluding input
nodes), accept the first unused pair with `start > end`, give up after
`max_attemps` tries returning the `(false, (-1, -1))` sentinel.  `w` stands
for the Gaussian weight draw of `network.add_conn`. -/
def Genome.mutate_add_conn (g : Genome) (cfg : Configs) (o : ℕ → ℕ)
    (max_attemps : ℕ) (w : ℚ) : Except String (Genome × (Bool × (ℤ × ℤ))) :=
  match g.network.node_genes.getLast? with
  | none => Except.error "IndexError: list index out of range"
  | some last =>
    match add_conn_loop g.network (add_conn_sI g) (add_conn_eIs g last) o 0 max_attemps with
    | Except.error msg => Except.error msg
    | Except.ok res =>
      match res.1 with
      | none => Except.ok (g, (false, (-1, -1)))
      | some (start_idx, end_idx) =>
        Except.ok ({ g with network := g.network.add_conn (mkConnGene start_idx end_idx 1) w },
          (true, (start_idx, end_idx)))

/-- `Genome.mutate_change_weight` (genome.py lines 107-113): a no-op with no
connections, otherwise replace one random connection's weight with the fresh
Gaussian sample `w`. -/
def Genome.mutate_change_weight (g : Genome) (cfg : Configs) (r : ℕ) (w : ℚ) :
    Except String Genome :=
  if g.network.conn_genes.length = 0 then Except.ok g
  else
    match np_randint g.network.conn_genes.length r with
    | Except.error msg => Except.error msg
    | Except.ok conn_idx => Except.ok { g with network := g.network.set_weight conn_idx w }

/-- Overwrite the bias of the node gene at a list position (the statement
`node_genes[node_idx].bias = ...` of genome.py line 119). -/
def setNodeBias (nodes : List NodeGene) (i : ℕ) (b : ℚ) : List NodeGene :=
  match nodes[i]? with
  | some nd => nodes.set i { nd with bias := b }
  | none => nodes

/-- `Genome.mutate_change_threshold` (genome.py lines 116-119): replace one
random node's bias with the fresh Gaussian sample `b`.  There is no empty
guard: `np.random.randint(low=0, high=0)` raises when the genome has no
node genes. -/
def Genome.mutate_change_threshold (g : Genome) (cfg : Configs) (r : ℕ) (b : ℚ) :
    Except String Genome :=
  match np_randint g.network.node_genes.length r with
  | Except.error msg => Except.error msg
  | Except.ok node_idx =>
    Except.ok { g with network := { g.network with
      node_genes := setNodeBias g.network.node_genes node_idx b } }

/-- `Genome.mutate_toggle_gene` (genome.py lines 122-131): a no-op with no
connections, otherwise flip the enabled flag of one random connection. -/
def Genome.mutate_toggle_gene (g : Genome) (r : ℕ) : Except String Genome :=
  if g.network.conn_genes.length = 0 then Except.ok g
  else
    match np_randint g.network.conn_genes.length r with
    | Except.error msg => Except.error msg
    | Except.ok conn_gene_idx =>
      if (g.network.conn_genes.getD conn_gene_idx dfltConn).enabled then
        Except.ok { g with network := g.network.disable_conn conn_gene_idx }
      else
        Except.ok { g with network := g.network.enable_conn conn_gene_idx }

/-- `Genome.mutate` (genome.py lines 133-163): each operator is gated by its
own uniform draw `u 0 .. u 4`.  The add-node branch reproduces the source
faithfully: line 148 calls `self.mutate_add_node()` without the required
`configs` argument, so taking that branch raises `TypeError` before any
operator runs.  `o` feeds the integer draws, `q` the Gaussian draws. -/
def Genome.mutate (g : Genome) (cfg : Configs) (u : ℕ → ℚ) (o : ℕ → ℕ) (q : ℕ → ℚ) :
    Except String (Genome × List (ℤ × ℤ)) :=
  if u 0 ≤ cfg.prob_add_node then
    Except.error "TypeError: mutate_add_node() missing 1 required positional argument: configs"
  else
    match (if u 1 ≤ cfg.add_conn_prob then
            match g.mutate_add_conn cfg o 10 (q 0) with
            | Except.error msg => Except.error msg
            | Except.ok res =>
              Except.ok (res.1, if res.2.1 then [res.2.2] else [])
           else Except.ok (g, [])) with
    | Except.error msg => Except.error msg
    | Except.ok (g1, conns) =>
      match (if u 2 ≤ cfg.change_weight_prob
             then g1.mutate_change_weight cfg (o 100) (q 1) else Except.ok g1) with
      | Except.error msg => Except.error msg
      | Except.ok g2 =>
        match (if u 3 ≤ cfg.threshold_change_prob
               then g2.mutate_change_threshold cfg (o 101) (q 2) else Except.ok g2) with
        | Except.error msg => Except.error msg
        | Except.ok g3 =>
          match (if u 4 ≤ cfg.toggle_gene_prob
                 then g3.mutate_toggle_gene (o 102) else Except.ok g3) with
          | Except.error msg => Except.error msg
          | Except.ok g4 => Except.ok (g4, conns)

/-- One iteration of crossover's innovation-number alignment loop
(genome.py lines 181-197).  State: the child's connection-gene list so far
and the maximum end index seen (initially `-1`).  A matching gene is copied
from the parent chosen by `flip i`; a disjoint gene is copied from the
fitter parent when it has it. -/
def crossover_conn_step (first second fit : Genome) (flip : ℕ → Bool)
    (st : List ConnectionGene × ℤ) (i : ℕ) : List ConnectionGene × ℤ :=
  if first.network.has_weight i && second.network.has_weight i then
    match (if flip i then first.network else second.network).get_conn_gene i with
    | some gene => (st.1 ++ [gene], if gene.«end» > st.2 then gene.«end» else st.2)
    | none => st
  else if first.network.has_weight i != second.network.has_weight i then
    match fit.network.get_conn_gene i with
    | some gene => (st.1 ++ [gene], if gene.«end» > st.2 then gene.«end» else st.2)
    | none => st
  else st

/-- One iteration of crossover's node-bias loop (genome.py lines 205-215).
When both parents have the node the bias comes from the parent chosen by
`nflip idx`; when exactly one has it the source reads
`fittest.network.node_genes[node_idx]` and, on `IndexError`, falls back to
`first.network if fittest == second.network else second.network` — a
comparison of a Genome with a Network that is never true, so the fallback
always reads the second parent (and an out-of-range read there escapes as
an uncaught `IndexError`). -/
def crossover_node_step (first second fit : Genome) (nflip : ℕ → Bool)
    (nodes : List NodeGene) (node_idx : ℕ) : Except String (List NodeGene) :=
  if first.network.has_node (node_idx : ℤ) && second.network.has_node (node_idx : ℤ) then
    match (if nflip node_idx then first.network else second.network).node_genes[node_idx]? with
    | some src => Except.ok (setNodeBias nodes node_idx src.bias)
    | none => Except.error "IndexError: list index out of range"
  else if first.network.has_node (node_idx : ℤ) != second.network.has_node (node_idx : ℤ) then
    match fit.network.node_genes[node_idx]? with
    | some src => Except.ok (setNodeBias nodes node_idx src.bias)
    | none =>
      match second.network.node_genes[node_idx]? with
      | some src => Except.ok (setNodeBias nodes node_idx src.bias)
      | none => Except.error "IndexError: list index out of range"
  else Except.ok nodes

/-- Crossover's node-bias loop over the hidden node indices. -/
def crossover_node_loop (first second fit : Genome) (nflip : ℕ → Bool) :
    List NodeGene → List ℕ → Except String (List NodeGene)
  | nodes, [] => Except.ok nodes
  | nodes, idx :: rest =>
    match crossover_node_step first second fit nflip nodes idx with
    | Except.error msg => Except.error msg
    | Except.ok nodes1 => crossover_node_loop first second fit nflip nodes1 rest

/-- The fitter parent (genome.py line 174): the first parent wins ties. -/
def crossover_fit (first second : Genome) : Genome :=
  if first.fitness ≥ second.fitness then first else second

/-- The innovation numbers scanned by crossover's alignment loop
(genome.py line 181): the inclusive range from the smaller of the two
parents' minimum innovations to the larger of their maxima. -/
def crossover_innovs (first second : Genome) : List ℕ :=
  let fi := first.network.get_weight_innov_interval
  let si := second.network.get_weight_innov_interval
  (List.range (max fi.2 si.2 + 1 - min fi.1 si.1)).map (fun j => min fi.1 si.1 + j)

/-- The child's connection genes and maximum end index, produced by the
alignment loop of genome.py lines 169-197. -/
def crossover_cm (first second : Genome) (flip : ℕ → Bool) : List ConnectionGene × ℤ :=
  (crossover_innovs first second).foldl
    (crossover_conn_step first second (crossover_fit first second) flip) ([], -1)

/-- The child's output and input node genes (genome.py line 202). -/
def crossover_base_nodes (first : Genome) : List NodeGene :=
  (List.range first.network.num_out).map
    (fun i => ({ index := Int.ofNat i, ntype := NodeType.OUTPUT, bias := 0 } : NodeGene)) ++
  (List.range first.network.num_in).map
    (fun i => ({ index := Int.ofNat (first.network.num_out + i), ntype := NodeType.INPUT, bias := 0 } : NodeGene))

/-- The child's node genes before the bias loop (genome.py lines 202-203):
I/O nodes followed by hidden placeholders up to the maximum end index. -/
def crossover_node_genes0 (first second : Genome) (flip : ℕ → Bool) : List NodeGene :=
  crossover_base_nodes first ++
    (List.range ((crossover_cm first second flip).2 - ((crossover_base_nodes first).length : ℤ) + 1).toNat).map
      (fun i => ({ index := Int.ofNat ((crossover_base_nodes first).length + i), ntype := NodeType.HIDDEN, bias := 0 } : NodeGene))

/-- The hidden node indices visited by the bias loop (genome.py line 205). -/
def crossover_idxs (first second : Genome) (flip : ℕ → Bool) : List ℕ :=
  (List.range ((crossover_node_genes0 first second flip).length -
      (first.network.num_in + first.network.num_out))).map
    (fun j => first.network.num_in + first.network.num_out + j)

/-- `crossover` (genome.py lines 167-222).  `flip i` chooses the parent for
the matching gene of innovation `i`; `nflip idx` chooses the parent for the
bias of a node both parents own.  The child is built from the first
parent's `num_in`, `num_out` and activation, with no compatibility check. -/
def crossover (first second : Genome) (flip nflip : ℕ → Bool) : Except String Genome :=
  match crossover_node_loop first second (crossover_fit first second) nflip
      (crossover_node_genes0 first second flip) (crossover_idxs first second flip) with
  | Except.error msg => Except.error msg
  | Except.ok final_nodes =>
    let net : Network :=
      { num_in := first.network.num_in, num_out := first.network.num_out,
        activation := first.network.activation, node_genes := [], conn_genes := [] }
    Except.ok (Genome.create_from_network
      (net.load_structure final_nodes (crossover_cm first second flip).1))

/-- The number of enabled connection genes of a topology. -/
def enabledCount (n : Network) : ℕ := (n.conn_genes.filter (fun c => c.enabled)).length

/-- A configuration with the section-8 coefficients and threshold 1. -/
def cfgUnit : Configs :=
  { weight_init_std := 1, threshold_init_std := 1, prob_add_node := 1/2,
    add_conn_prob := 1/2, change_weight_prob := 1/2, threshold_change_prob := 1/2,
    toggle_gene_prob := 1/2, unmatched_genes_coeff := 1/2, weight_diff_coeff := 1/2,
    compatibility_threshold := 1 }

/-- The section-8 coefficients with threshold 0 (separates the signed and
absolute average weight difference). -/
def cfgZeroThr : Configs := { cfgUnit with compatibility_threshold := 0 }

/-- A configuration whose add-node probability is 1, so the add-node gate of
`mutate` always fires. -/
def cfgFire : Configs := { cfgUnit with prob_add_node := 1 }

/-- A minimal genome: one output node `0`, one input node `1`, one enabled
connection `1 -> 0` with weight 1 and innovation 1. -/
def gSimple : Genome :=
  { species := 0, fitness := 0,
    network :=
      { num_in := 1, num_out := 1, activation := "relu",
        node_genes := [{ index := 0, ntype := NodeType.OUTPUT, bias := 0 },
                       { index := 1, ntype := NodeType.INPUT, bias := 0 }],
        conn_genes := [{ start := 1, «end» := 0, weight := 1, innov := 1, enabled := true }] } }

/-- Like `gSimple` but the single connection is already disabled. -/
def gDisabled : Genome :=
  { gSimple with network := { gSimple.network with
      conn_genes := [{ start := 1, «end» := 0, weight := 1, innov := 1, enabled := false }] } }

/-- A genome with no node genes and no connection genes at all. -/
def gEmpty : Genome :=
  { species := 0, fitness := 0,
    network := { num_in := 0, num_out := 0, activation := "relu",
                 node_genes := [], conn_genes := [] } }

/-- Genome A of the section-8 scenario: connections with innovations 1
(weight 1.0) and 2 (weight -1.0), over the two I/O nodes. -/
def gScenA : Genome :=
  { species := 0, fitness := 0,
    network :=
      { num_in := 1, num_out := 1, activation := "relu",
        node_genes := [{ index := 0, ntype := NodeType.OUTPUT, bias := 0 },
                       { index := 1, ntype := NodeType.INPUT, bias := 0 }],
        conn_genes := [{ start := 1, «end» := 0, weight := 1, innov := 1, enabled := true },
                       { start := 1, «end» := 0, weight := -1, innov := 2, enabled := true }] } }

/-- Genome B of the section-8 scenario: connections with innovations 1
(weight 1.2) and 3 (weight 0.5), over the two I/O nodes. -/
def gScenB : Genome :=
  { species := 0, fitness := 0,
    network :=
      { num_in := 1, num_out := 1, activation := "relu",
        node_genes := [{ index := 0, ntype := NodeType.OUTPUT, bias := 0 },
                       { index := 1, ntype := NodeType.INPUT, bias := 0 }],
        conn_genes := [{ start := 1, «end» := 0, weight := 6/5, innov := 1, enabled := true },
                       { start := 1, «end» := 0, weight := 1/2, innov := 3, enabled := true }] } }

/-- Like `gSimple` but with activation "sigmoid" and weight 2 on the
connection. -/
def gSigmoid : Genome :=
  { gSimple with network := { gSimple.network with
      activation := "sigmoid",
      conn_genes := [{ start := 1, «end» := 0, weight := 2, innov := 1, enabled := true }] } }

/-- C1 counterexample: on `gSimple`, `mutate_add_node` splits the only
connection `1 -> 0` with the fresh hidden node 2 and creates the connection
`1 -> 2`, whose `start` is strictly smaller than its `end` — the
acyclicity invariant `start > end` is not preserved by `add_node`. -/
theorem C1_add_node_violates_start_gt_end_cex :
    ∃ g', Genome.mutate_add_node gSimple cfgUnit 0 5 5
        = Except.ok (g', some ((1, 2), (2, 0))) ∧
      ∃ c ∈ g'.network.conn_genes, c.start < c.«end» := by
  refine ⟨_, rfl, ?_⟩
  decide

/-- C2: whenever the add-node gate of `mutate` fires (here the uniform draw
is 1 and `prob_add_node` is 1), the call `self.mutate_add_node()` on
genome.py line 148 is missing its required `configs` argument, so `mutate`
raises `TypeError` instead of completing. -/
theorem C2_mutate_raises_TypeError :
    Genome.mutate gSimple cfgFire (fun _ => 1) (fun _ => 0) (fun _ => 0)
      = Except.error
          "TypeError: mutate_add_node() missing 1 required positional argument: configs" := by
  rfl

/-- C3 counterexample: on the section-8 scenario with threshold 0, the code
(signed weight differences, unmatched counted on node genes) answers `true`
while the claimed computation (absolute differences, unmatched counted on
connection innovations) answers `false`. -/
theorem C3_signed_vs_absolute_cex :
    Genome.are_same_species gScenA gScenB cfgZeroThr = Except.ok true ∧
      are_same_species_claimed gScenA gScenB cfgZeroThr = Except.ok false := by
  constructor <;>
    norm_num [Genome.are_same_species, are_same_species_claimed, speciesDiffN,
      Network.get_weight, Network.get_num_unmatched_node_genes, Network.has_node,
      Network.has_weight, Network.get_conn_gene, Network.nodes, gScenA, gScenB,
      cfgZeroThr, cfgUnit, List.foldl, List.filter, List.any, List.find?]
  positivity

/-- C3 amended: `are_same_species` sums the signed differences
`weight(g1) - weight(g2)` (no absolute value) and counts unmatched node
genes, not unmatched connection innovations.  On the section-8 scenario the
matched-gene sum is `1.0 - 1.2 = -0.2` over one matched pair, the unmatched
node-gene count is 0, and with threshold 1 the genomes are deemed the same
species. -/
theorem C3_signed_difference_amended :
    speciesDiffN gScenA gScenB = (-(1/5), 1) ∧
      gScenA.network.get_num_unmatched_node_genes gScenB.network = 0 ∧
      Genome.are_same_species gScenA gScenB cfgUnit = Except.ok true := by
  refine ⟨?_, ?_, ?_⟩ <;>
    norm_num [Genome.are_same_species, speciesDiffN, Network.get_weight,
      Network.get_num_unmatched_node_genes, Network.has_node, Network.nodes,
      gScenA, gScenB, cfgUnit, List.foldl, List.filter, List.any]

/-- C6 counterexample: on `gDisabled` (a single, already disabled
connection), `add_node` leaves the enabled count at 0 and then adds two
enabled connections: the enabled-connection count moves from 0 to 2, and in
particular does not decrease by one. -/
theorem C6_enabled_count_cex :
    ∃ g', Genome.mutate_add_node gDisabled cfgUnit 0 5 5
        = Except.ok (g', some ((1, 2), (2, 0))) ∧
      enabledCount gDisabled.network = 0 ∧ enabledCount g'.network = 2 ∧
      ¬ enabledCount g'.network + 1 = enabledCount gDisabled.network := by
  refine ⟨_, rfl, ?_⟩
  decide

/-- C7: on a genome with no node genes `mutate_change_threshold` reaches
`np.random.randint(low=0, high=0)`, which raises `ValueError` — the code
does not return a "nothing happened" sentinel there.  The three operators
guarded by an emptiness check (`add_node`, `change_weight`, `toggle_gene`)
do return without error and leave the topology unchanged. -/
theorem C7_change_threshold_raises_on_empty :
    Genome.mutate_change_threshold gEmpty cfgUnit 0 3
        = Except.error "ValueError: low >= high" ∧
      Genome.mutate_add_node gEmpty cfgUnit 0 5 5 = Except.ok (gEmpty, none) ∧
      Genome.mutate_change_weight gEmpty cfgUnit 0 5 = Except.ok gEmpty ∧
      Genome.mutate_toggle_gene gEmpty 0 = Except.ok gEmpty := by
  refine ⟨rfl, rfl, rfl, rfl⟩

/-- C10 counterexample: crossover of a "relu" parent with a "sigmoid"
parent is not rejected: it silently returns a child carrying the first
parent's activation and I/O shape. -/
theorem C10_no_mismatch_rejection_cex :
    ∃ child, crossover gSimple gSigmoid (fun _ => true) (fun _ => true)
        = Except.ok child ∧
      child.network.activation = gSimple.network.activation ∧
      gSimple.network.activation ≠ gSigmoid.network.activation ∧
      child.network.num_in = gSimple.network.num_in ∧
      child.network.num_out = gSimple.network.num_out := by
  refine ⟨_, rfl, ?_⟩
  decide

/-- Any successful `crossover` result decomposes into the connection-gene
fold and the node-bias loop, with the child network built from the first
parent's shape and activation. -/
theorem crossover_ok_destruct (first second : Genome) (flip nflip : ℕ → Bool)
    (child : Genome) (h : crossover first second flip nflip = Except.ok child) :
    ∃ final_nodes,
      crossover_node_loop first second (crossover_fit first second) nflip
          (crossover_node_genes0 first second flip) (crossover_idxs first second flip)
        = Except.ok final_nodes ∧
      child = Genome.create_from_network
        { num_in := first.network.num_in, num_out := first.network.num_out,
          activation := first.network.activation,
          node_genes := final_nodes, conn_genes := (crossover_cm first second flip).1 } := by
  unfold crossover at h
  cases hl : crossover_node_loop first second (crossover_fit first second) nflip
      (crossover_node_genes0 first second flip) (crossover_idxs first second flip) with
  | error m =>
    rw [hl] at h
    exact absurd h (by simp)
  | ok final_nodes =>
    rw [hl] at h
    exact ⟨final_nodes, rfl, (Except.ok.inj h).symm⟩

/-- C10 amended: `crossover` performs no structural-compatibility check:
whenever it returns a child, that child carries the first parent's
activation and I/O shape, whatever the second parent looks like. -/
theorem C10_child_from_first_parent_amended (first second : Genome)
    (flip nflip : ℕ → Bool) (child : Genome)
    (h : crossover first second flip nflip = Except.ok child) :
    child.network.activation = first.network.activation ∧
      child.network.num_in = first.network.num_in ∧
      child.network.num_out = first.network.num_out := by
  obtain ⟨final_nodes, -, hchild⟩ := crossover_ok_destruct first second flip nflip child h
  subst hchild
  exact ⟨rfl, rfl, rfl⟩

/-- Witness for C10's amended theorem at the "relu" / "sigmoid" pair. -/
theorem C10_child_from_first_parent_amended_witness :
    ∃ child, crossover gSimple gSigmoid (fun _ => false) (fun _ => true)
        = Except.ok child ∧ child.network.activation = gSimple.network.activation := by
  refine ⟨_, rfl, ?_⟩
  exact (C10_child_from_first_parent_amended gSimple gSigmoid
    (fun _ => false) (fun _ => true) _ rfl).1

/-- The retry loop performs at most `fuel` candidate draws. -/
theorem add_conn_loop_draws_le (net : Network) (sI : ℤ × ℤ) (eIs : List (ℤ × ℤ))
    (o : ℕ → ℕ) : ∀ (fuel k : ℕ) (res : Option (ℤ × ℤ) × ℕ),
    add_conn_loop net sI eIs o k fuel = Except.ok res → res.2 ≤ fuel := by
  intro fuel
  induction fuel with
  | zero =>
    intro k res h
    unfold add_conn_loop at h
    cases h
    exact Nat.le_refl 0
  | succ n ih =>
    intro k res h
    unfold add_conn_loop at h
    split at h
    · exact absurd h (by simp)
    · split at h
      · exact absurd h (by simp)
      · split at h
        · exact absurd h (by simp)
        · split at h
          · cases h
            exact Nat.succ_le_succ (Nat.zero_le n)
          · split at h
            · exact absurd h (by simp)
            · cases h
              exact Nat.succ_le_succ (ih _ _ (by assumption))

/-- C9: with `max_attemps = 0` the attempt loop never runs, so `add_conn`
adds nothing, reports failure through the `(false, (-1, -1))` sentinel and
raises nothing (the genome must have at least one node gene, as every
constructed genome does — `node_genes[-1]` is read before the loop); and
the loop performs at most `max_attemps` candidate draws. -/
theorem C9_add_conn_zero_attempts (g : Genome) (cfg : Configs) (o : ℕ → ℕ) (w : ℚ)
    (hnodes : g.network.node_genes ≠ []) :
    Genome.mutate_add_conn g cfg o 0 w = Except.ok (g, (false, (-1, -1))) ∧
      ∀ (net : Network) (sI : ℤ × ℤ) (eIs : List (ℤ × ℤ)) (o2 : ℕ → ℕ)
        (k fuel : ℕ) (res : Option (ℤ × ℤ) × ℕ),
        add_conn_loop net sI eIs o2 k fuel = Except.ok res → res.2 ≤ fuel := by
  constructor
  · unfold Genome.mutate_add_conn
    cases hl : g.network.node_genes.getLast? with
    | none => exact absurd (List.getLast?_eq_none_iff.mp hl) hnodes
    | some last => rfl
  · exact fun net sI eIs o2 k fuel res h => add_conn_loop_draws_le net sI eIs o2 fuel k res h

/-- Witness for C9 at a concrete genome with one node. -/
theorem C9_add_conn_zero_attempts_witness :
    Genome.mutate_add_conn gSimple cfgUnit (fun _ => 0) 0 0
      = Except.ok (gSimple, (false, (-1, -1))) :=
  (C9_add_conn_zero_attempts gSimple cfgUnit (fun _ => 0) 0 (by decide)).1

/-- If a connection gene matches no innovation in the list, the inner loop
of `are_same_species` leaves the accumulator unchanged. -/
theorem species_inner_fold_id (self other : Genome) (g1 : ConnectionGene) :
    ∀ (l : List ConnectionGene), (∀ g2 ∈ l, g1.innov ≠ g2.innov) → ∀ st : ℚ × ℕ,
      l.foldl (fun st2 g2 =>
        if g1.innov = g2.innov then
          (st2.1 + (self.network.get_weight g1 - other.network.get_weight g2), st2.2 + 1)
        else st2) st = st := by
  intro l
  induction l with
  | nil => intro _ st; rfl
  | cons a tl ih =>
    intro hno st
    have ha : g1.innov ≠ a.innov := hno a (List.mem_cons_self a tl)
    simp only [List.foldl_cons, if_neg ha]
    exact ih (fun g2 hg2 => hno g2 (List.mem_cons_of_mem a hg2)) st

/-- With no shared innovation numbers, the double loop of
`are_same_species` accumulates nothing. -/
theorem speciesDiffN_eq_zero (self other : Genome)
    (h : ∀ g1 ∈ self.network.conn_genes, ∀ g2 ∈ other.network.conn_genes,
      g1.innov ≠ g2.innov) :
    speciesDiffN self other = (0, 0) := by
  unfold speciesDiffN
  have H : ∀ (l : List ConnectionGene),
      (∀ g1 ∈ l, ∀ g2 ∈ other.network.conn_genes, g1.innov ≠ g2.innov) → ∀ st : ℚ × ℕ,
      l.foldl (fun st g1 =>
        other.network.conn_genes.foldl (fun st2 g2 =>
          if g1.innov = g2.innov then
            (st2.1 + (self.network.get_weight g1 - other.network.get_weight g2), st2.2 + 1)
          else st2) st) st = st := by
    intro l
    induction l with
    | nil => intro _ st; rfl
    | cons a tl ih =>
      intro hno st
      simp only [List.foldl_cons]
      rw [species_inner_fold_id self other a other.network.conn_genes
        (hno a (List.mem_cons_self a tl)) st]
      exact ih (fun g1 h1 => hno g1 (List.mem_cons_of_mem a h1)) st
  exact H self.network.conn_genes h (0, 0)

/-- C8: when the genomes share no connection-gene innovation numbers the
`n = 0` division is swallowed by the try/except, the weight-difference term
contributes zero, and `are_same_species` returns a boolean normally (the
genomes are required to have at least one gene so that the N division —
which is not protected — is well defined). -/
theorem C8_no_shared_innovations_ok (self other : Genome) (cfg : Configs)
    (hshare : ∀ g1 ∈ self.network.conn_genes, ∀ g2 ∈ other.network.conn_genes,
      g1.innov ≠ g2.innov)
    (hN : self.network.node_genes ≠ [] ∨ other.network.node_genes ≠ []) :
    Genome.are_same_species self other cfg =
      Except.ok (decide (cfg.unmatched_genes_coeff *
          (self.network.get_num_unmatched_node_genes other.network : ℚ) /
          ((max (self.network.conn_genes.length + self.network.nodes.length)
               (other.network.conn_genes.length + other.network.nodes.length) : ℕ) : ℚ) +
        cfg.weight_diff_coeff * 0 < cfg.compatibility_threshold)) := by
  unfold Genome.are_same_species
  rw [speciesDiffN_eq_zero self other hshare]
  have hN0 : ¬ (max (self.network.conn_genes.length + self.network.nodes.length)
      (other.network.conn_genes.length + other.network.nodes.length) = 0) := by
    rcases hN with h | h
    · have h1 : 0 < self.network.nodes.length := List.length_pos.mpr h
      simp only [Nat.max_eq_zero_iff]
      omega
    · have h1 : 0 < other.network.nodes.length := List.length_pos.mpr h
      simp only [Nat.max_eq_zero_iff]
      omega
  simp only [if_neg hN0, if_true]

/-- Witness for C8: `gSimple` against the geneless `gEmpty`. -/
theorem C8_no_shared_innovations_ok_witness :
    Genome.are_same_species gSimple gEmpty cfgUnit = Except.ok true := by
  rw [C8_no_shared_innovations_ok gSimple gEmpty cfgUnit (by decide) (Or.inl (by decide))]
  norm_num [gSimple, gEmpty, cfgUnit, Network.get_num_unmatched_node_genes,
    Network.has_node, Network.nodes]

/-- A gene found by innovation number carries that innovation number. -/
theorem get_conn_gene_innov {n : Network} {i : ℕ} {gene : ConnectionGene}
    (h : n.get_conn_gene i = some gene) : gene.innov = i := by
  unfold Network.get_conn_gene at h
  have hp := List.find?_some h
  exact of_decide_eq_true hp

/-- A gene found by innovation number belongs to the topology's gene list. -/
theorem get_conn_gene_mem {n : Network} {i : ℕ} {gene : ConnectionGene}
    (h : n.get_conn_gene i = some gene) : gene ∈ n.conn_genes := by
  unfold Network.get_conn_gene at h
  exact List.mem_of_find?_eq_some h

/-- Case analysis of one alignment-loop iteration: the state is unchanged,
or exactly one gene with the scanned innovation number is appended, coming
from a parent that owns it (a matching gene lies in one of the two parents
and both have the innovation; a disjoint gene lies in the fitter parent). -/
theorem crossover_conn_step_cases (first second fit : Genome) (flip : ℕ → Bool)
    (st : List ConnectionGene × ℤ) (i : ℕ) :
    crossover_conn_step first second fit flip st i = st ∨
    ∃ gene, crossover_conn_step first second fit flip st i
        = (st.1 ++ [gene], if gene.«end» > st.2 then gene.«end» else st.2) ∧
      gene.innov = i ∧
      ((first.network.has_weight i = true ∧ second.network.has_weight i = true ∧
          (gene ∈ first.network.conn_genes ∨ gene ∈ second.network.conn_genes)) ∨
        gene ∈ fit.network.conn_genes) := by
  unfold crossover_conn_step
  by_cases hb : (first.network.has_weight i && second.network.has_weight i) = true
  · rw [if_pos hb]
    have hb2 : first.network.has_weight i = true ∧ second.network.has_weight i = true := by
      simpa using hb
    have hsplit : ∃ base, (if flip i then first.network else second.network) = base ∧
        (base = first.network ∨ base = second.network) := by
      by_cases hf : flip i
      · exact ⟨first.network, if_pos hf, Or.inl rfl⟩
      · exact ⟨second.network, if_neg hf, Or.inr rfl⟩
    obtain ⟨base, hbeq, hbor⟩ := hsplit
    rw [hbeq]
    cases hg : base.get_conn_gene i with
    | some gene =>
      refine Or.inr ⟨gene, rfl, get_conn_gene_innov hg, Or.inl ⟨hb2.1, hb2.2, ?_⟩⟩
      rcases hbor with rfl | rfl
      · exact Or.inl (get_conn_gene_mem hg)
      · exact Or.inr (get_conn_gene_mem hg)
    | none => exact Or.inl rfl
  · rw [if_neg hb]
    by_cases hne : (first.network.has_weight i != second.network.has_weight i) = true
    · rw [if_pos hne]
      cases hg : fit.network.get_conn_gene i with
      | some gene =>
        exact Or.inr ⟨gene, rfl, get_conn_gene_innov hg, Or.inr (get_conn_gene_mem hg)⟩
      | none => exact Or.inl rfl
    · rw [if_neg hne]
      exact Or.inl rfl

/-- Every gene the alignment fold accumulates comes from the initial state
or from one of the two parents. -/
theorem crossover_conn_fold_mem (first second fit : Genome) (flip : ℕ → Bool)
    (hfit : fit = first ∨ fit = second) :
    ∀ (l : List ℕ) (st : List ConnectionGene × ℤ) (c : ConnectionGene),
      c ∈ (l.foldl (crossover_conn_step first second fit flip) st).1 →
      c ∈ st.1 ∨ c ∈ first.network.conn_genes ∨ c ∈ second.network.conn_genes := by
  intro l
  induction l with
  | nil => exact fun st c hc => Or.inl hc
  | cons i tl ih =>
    intro st c hc
    simp only [List.foldl_cons] at hc
    rcases ih (crossover_conn_step first second fit flip st i) c hc with h | h | h
    · rcases crossover_conn_step_cases first second fit flip st i with he | ⟨gene, he, hi, hsrc⟩
      · rw [he] at h
        exact Or.inl h
      · rw [he] at h
        rcases List.mem_append.mp h with h1 | h1
        · exact Or.inl h1
        · have hcg : c = gene := List.mem_singleton.mp h1
          subst hcg
          rcases hsrc with ⟨_, _, hg | hg⟩ | hg
          · exact Or.inr (Or.inl hg)
          · exact Or.inr (Or.inr hg)
          · rcases hfit with rfl | rfl
            · exact Or.inr (Or.inl hg)
            · exact Or.inr (Or.inr hg)
    · exact Or.inr (Or.inl h)
    · exact Or.inr (Or.inr h)

/-- The alignment fold never repeats an innovation number: scanning a
duplicate-free innovation list starting from a state whose genes avoid
it keeps the accumulated innovation numbers duplicate-free. -/
theorem crossover_conn_fold_nodup (first second fit : Genome) (flip : ℕ → Bool) :
    ∀ (l : List ℕ) (st : List ConnectionGene × ℤ), l.Nodup →
      (∀ c ∈ st.1, c.innov ∉ l) → (st.1.map (fun c => c.innov)).Nodup →
      ((l.foldl (crossover_conn_step first second fit flip) st).1.map
        (fun c => c.innov)).Nodup := by
  intro l
  induction l with
  | nil => exact fun st _ _ h => h
  | cons i tl ih =>
    intro st hnd hnotin hstnd
    simp only [List.foldl_cons]
    rcases crossover_conn_step_cases first second fit flip st i with he | ⟨gene, he, hi, _⟩
    · rw [he]
      exact ih st (List.nodup_cons.mp hnd).2
        (fun c hc hmem => hnotin c hc (List.mem_cons_of_mem i hmem)) hstnd
    · rw [he]
      apply ih _ (List.nodup_cons.mp hnd).2
      · intro c hc
        rcases List.mem_append.mp hc with h1 | h1
        · exact fun hmem => hnotin c h1 (List.mem_cons_of_mem i hmem)
        · have hcg : c = gene := List.mem_singleton.mp h1
          subst hcg
          rw [hi]
          exact (List.nodup_cons.mp hnd).1
      · rw [List.map_append]
        apply List.Nodup.append hstnd (List.nodup_singleton _)
        intro a ha hb
        simp only [List.map_cons, List.map_nil, List.mem_singleton] at hb
        subst hb
        rcases List.mem_map.mp ha with ⟨c, hc, hceq⟩
        have : gene.innov ∈ i :: tl := by
          rw [hi]
          exact List.mem_cons_self i tl
        rw [← hceq] at this
        exact hnotin c hc this

/-- The scanned innovation range contains no duplicates. -/
theorem crossover_innovs_nodup (first second : Genome) :
    (crossover_innovs first second).Nodup := by
  unfold crossover_innovs
  exact List.Nodup.map (fun a b hab => by omega) (List.nodup_range _)

/-- The fitter parent is one of the two parents. -/
theorem crossover_fit_eq_or (first second : Genome) :
    crossover_fit first second = first ∨ crossover_fit first second = second := by
  unfold crossover_fit
  by_cases hf : first.fitness ≥ second.fitness
  · exact Or.inl (if_pos hf)
  · exact Or.inr (if_neg hf)

/-- C4: every connection gene of a crossover child carries an innovation
number present in at least one parent, and no innovation number appears on
two of the child's connection genes. -/
theorem C4_crossover_innovation_invariant (first second : Genome)
    (flip nflip : ℕ → Bool) (child : Genome)
    (h : crossover first second flip nflip = Except.ok child) :
    (∀ c ∈ child.network.conn_genes,
        first.network.has_weight c.innov = true ∨
          second.network.has_weight c.innov = true) ∧
      (child.network.conn_genes.map (fun c => c.innov)).Nodup := by
  obtain ⟨final_nodes, -, hchild⟩ := crossover_ok_destruct first second flip nflip child h
  have hconns : child.network.conn_genes = (crossover_cm first second flip).1 := by
    rw [hchild]
    rfl
  rw [hconns]
  constructor
  · intro c hc
    unfold crossover_cm at hc
    rcases crossover_conn_fold_mem first second (crossover_fit first second) flip
        (crossover_fit_eq_or first second) (crossover_innovs first second) ([], -1) c hc
      with h1 | h1 | h1
    · cases h1
    · left
      have hex : ∃ x ∈ first.network.conn_genes, decide (x.innov = c.innov) = true :=
        ⟨c, h1, by simp⟩
      simpa [Network.has_weight, Network.get_conn_gene, List.find?_isSome] using hex
    · right
      have hex : ∃ x ∈ second.network.conn_genes, decide (x.innov = c.innov) = true :=
        ⟨c, h1, by simp⟩
      simpa [Network.has_weight, Network.get_conn_gene, List.find?_isSome] using hex
  · unfold crossover_cm
    apply crossover_conn_fold_nodup first second (crossover_fit first second) flip
      (crossover_innovs first second) ([], -1) (crossover_innovs_nodup first second)
    · intro c hc
      cases hc
    · exact List.nodup_nil

/-- Witness for C4 at a concrete crossover of `gSimple` and `gSigmoid`. -/
theorem C4_crossover_innovation_invariant_witness :
    ∃ child, crossover gSimple gSigmoid (fun _ => true) (fun _ => false)
        = Except.ok child ∧
      (∀ c ∈ child.network.conn_genes,
        gSimple.network.has_weight c.innov = true ∨
          gSigmoid.network.has_weight c.innov = true) ∧
      (child.network.conn_genes.map (fun c => c.innov)).Nodup := by
  refine ⟨_, rfl, ?_⟩
  exact C4_crossover_innovation_invariant gSimple gSigmoid
    (fun _ => true) (fun _ => false) _ rfl

/-- Disabling the connection gene at position `i` removes its contribution
to the enabled count: one if it was enabled, nothing if it was already
disabled. -/
theorem enabled_filter_set (l : List ConnectionGene) :
    ∀ (i : ℕ) (c : ConnectionGene), l[i]? = some c →
      ((l.set i { c with enabled := false }).filter (fun x => x.enabled)).length
          + (if c.enabled then 1 else 0)
        = (l.filter (fun x => x.enabled)).length := by
  induction l with
  | nil => intro i c h; cases h
  | cons a tl ih =>
    intro i c h
    cases i with
    | zero =>
      have hac : a = c := by simpa using h
      subst hac
      by_cases he : a.enabled
      · simp [List.filter_cons, he]
      · simp [List.filter_cons, he]
    | succ n =>
      have htl : tl[n]? = some c := by simpa using h
      have hrec := ih n c htl
      rcases Bool.eq_false_or_eq_true a.enabled with ha | ha <;>
        rcases Bool.eq_false_or_eq_true c.enabled with hc | hc <;>
        simp [List.set_cons_succ, List.filter_cons, ha, hc] at hrec ⊢ <;>
        omega

/-- The position picked by `np.random.randint` is in range, so indexing
cannot miss: the picked gene is `getD` of the draw. -/
theorem conn_pick_some (g : Genome) (r : ℕ) (hlen : ¬ g.network.conn_genes.length = 0) :
    g.network.conn_genes[(r % g.network.conn_genes.length)]?
      = some (g.network.conn_genes.getD (r % g.network.conn_genes.length) dfltConn) := by
  have hidx : r % g.network.conn_genes.length < g.network.conn_genes.length :=
    Nat.mod_lt _ (Nat.pos_of_ne_zero hlen)
  rw [List.getD_eq_getElem?_getD, List.getElem?_eq_getElem hidx]
  rfl

/-- The value computed by a successful `mutate_add_node`: the picked
connection disabled in place, one appended hidden node whose index is the
former node count, and the two appended connections `a -> c` and `c -> b`. -/
def add_node_result (g : Genome) (idx : ℕ) (w1 w2 : ℚ) :
    Genome × Option ((ℤ × ℤ) × (ℤ × ℤ)) :=
  ({ g with network :=
      { num_in := g.network.num_in, num_out := g.network.num_out,
        activation := g.network.activation,
        node_genes := g.network.node_genes ++
          [{ index := (g.network.node_genes.length : ℤ), ntype := NodeType.HIDDEN, bias := 0 }],
        conn_genes :=
          (g.network.conn_genes.set idx
              { g.network.conn_genes.getD idx dfltConn with enabled := false }
            ++ [{ mkConnGene (g.network.conn_genes.getD idx dfltConn).start
                    (g.network.node_genes.length : ℤ) 1 with weight := w1 }])
          ++ [{ mkConnGene (g.network.node_genes.length : ℤ)
                  (g.network.conn_genes.getD idx dfltConn).«end» 1 with weight := w2 }] } },
   some (((g.network.conn_genes.getD idx dfltConn).start, (g.network.node_genes.length : ℤ)),
         ((g.network.node_genes.length : ℤ), (g.network.conn_genes.getD idx dfltConn).«end»)))

/-- On a genome with at least one connection, `mutate_add_node` succeeds and
returns exactly `add_node_result` at the drawn position. -/
theorem mutate_add_node_eq (g : Genome) (cfg : Configs) (r : ℕ) (w1 w2 : ℚ)
    (hlen : ¬ g.network.conn_genes.length = 0) :
    Genome.mutate_add_node g cfg r w1 w2
      = Except.ok (add_node_result g (r % g.network.conn_genes.length) w1 w2) := by
  have hsome := conn_pick_some g r hlen
  unfold Genome.mutate_add_node np_randint
  rw [if_neg hlen, if_neg hlen]
  simp only [add_node_result, Network.disable_conn]
  rw [hsome]
  simp [Network.gen_node, Network.add_conn, List.getLastD_concat]

/-- C6 amended: with at least one connection, `add_node` adds exactly two
connection genes and one node gene; since the new connections are created
enabled and the picked connection is disabled, the enabled-connection count
grows by one (picked connection previously enabled) or by two (picked
connection already disabled) — it never decreases. -/
theorem C6_add_node_counts_amended (g : Genome) (cfg : Configs) (r : ℕ) (w1 w2 : ℚ)
    (h : g.network.conn_genes ≠ []) :
    ∃ gp pairs, Genome.mutate_add_node g cfg r w1 w2 = Except.ok (gp, some pairs) ∧
      gp.network.conn_genes.length = g.network.conn_genes.length + 2 ∧
      gp.network.node_genes.length = g.network.node_genes.length + 1 ∧
      enabledCount gp.network = enabledCount g.network +
        (if (g.network.conn_genes.getD (r % g.network.conn_genes.length) dfltConn).enabled
         then 1 else 2) := by
  have hlen : ¬ g.network.conn_genes.length = 0 := by
    simpa [List.length_eq_zero] using h
  rw [mutate_add_node_eq g cfg r w1 w2 hlen]
  refine ⟨_, _, rfl, ?_, ?_, ?_⟩
  · simp [add_node_result]
  · simp [add_node_result]
  · have hset := enabled_filter_set g.network.conn_genes (r % g.network.conn_genes.length)
      (g.network.conn_genes.getD (r % g.network.conn_genes.length) dfltConn)
      (conn_pick_some g r hlen)
    set conn := g.network.conn_genes.getD (r % g.network.conn_genes.length) dfltConn with hconn
    rcases Bool.eq_false_or_eq_true conn.enabled with he | he <;>
      simp [add_node_result, enabledCount, mkConnGene,
        List.filter_append, List.filter_cons, he] at hset ⊢ <;>
      omega

/-- Witness for C6's amended theorem on `gSimple` (enabled pick). -/
theorem C6_add_node_counts_amended_witness :
    ∃ gp pairs, Genome.mutate_add_node gSimple cfgUnit 0 5 5 = Except.ok (gp, some pairs) ∧
      gp.network.conn_genes.length = gSimple.network.conn_genes.length + 2 ∧
      gp.network.node_genes.length = gSimple.network.node_genes.length + 1 ∧
      enabledCount gp.network = enabledCount gSimple.network +
        (if (gSimple.network.conn_genes.getD
              (0 % gSimple.network.conn_genes.length) dfltConn).enabled
         then 1 else 2) :=
  C6_add_node_counts_amended gSimple cfgUnit 0 5 5 (by decide)

/-- The acyclicity invariant of the spec: every connection gene has
`start > end`. -/
def netConnsOk (n : Network) : Prop := ∀ c ∈ n.conn_genes, c.«end» < c.start

/-- Replacing a gene by one with the same endpoints preserves the
acyclicity invariant. -/
theorem netConnsOk_set_endpoints {l : List ConnectionGene} {i : ℕ} {c c2 : ConnectionGene}
    (hc : l[i]? = some c) (hs : c2.start = c.start) (he : c2.«end» = c.«end»)
    (H : ∀ x ∈ l, x.«end» < x.start) : ∀ x ∈ l.set i c2, x.«end» < x.start := by
  intro x hx
  rcases List.mem_or_eq_of_mem_set hx with h1 | rfl
  · exact H x h1
  · rw [hs, he]
    exact H c (List.getElem?_mem hc)

theorem netConnsOk_set_weight (n : Network) (i : ℕ) (w : ℚ) (H : netConnsOk n) :
    netConnsOk (n.set_weight i w) := by
  unfold Network.set_weight
  cases hg : n.conn_genes[i]? with
  | none => exact H
  | some c => exact netConnsOk_set_endpoints hg rfl rfl H

theorem netConnsOk_disable (n : Network) (i : ℕ) (H : netConnsOk n) :
    netConnsOk (n.disable_conn i) := by
  unfold Network.disable_conn
  cases hg : n.conn_genes[i]? with
  | none => exact H
  | some c => exact netConnsOk_set_endpoints hg rfl rfl H

theorem netConnsOk_enable (n : Network) (i : ℕ) (H : netConnsOk n) :
    netConnsOk (n.enable_conn i) := by
  unfold Network.enable_conn
  cases hg : n.conn_genes[i]? with
  | none => exact H
  | some c => exact netConnsOk_set_endpoints hg rfl rfl H

/-- A pair accepted by the retry loop passed its validity test:
`start > end`. -/
theorem add_conn_loop_valid (net : Network) (sI : ℤ × ℤ) (eIs : List (ℤ × ℤ))
    (o : ℕ → ℕ) : ∀ (fuel k : ℕ) (res : Option (ℤ × ℤ) × ℕ) (s e : ℤ),
    add_conn_loop net sI eIs o k fuel = Except.ok res → res.1 = some (s, e) → e < s := by
  intro fuel
  induction fuel with
  | zero =>
    intro k res s e h hres
    unfold add_conn_loop at h
    cases h
    cases hres
  | succ n ih =>
    intro k res s e h hres
    unfold add_conn_loop at h
    split at h
    · exact absurd h (by simp)
    · split at h
      · exact absurd h (by simp)
      · split at h
        · exact absurd h (by simp)
        · split at h
          · rename_i hcond
            cases h
            simp only [Option.some.injEq, Prod.mk.injEq] at hres
            obtain ⟨rfl, rfl⟩ := hres
            simp only [Bool.and_eq_true, decide_eq_true_eq] at hcond
            exact hcond.2
          · split at h
            · exact absurd h (by simp)
            · rename_i res2 hres2
              cases h
              exact ih _ res2 s e hres2 hres

/-- Any successful `mutate_add_conn` call decomposes into the last-node
read and the retry loop, returning either the failure sentinel or the
genome extended with the accepted pair. -/
theorem mutate_add_conn_ok_destruct (g : Genome) (cfg : Configs) (o : ℕ → ℕ)
    (m : ℕ) (w : ℚ) (res : Genome × (Bool × (ℤ × ℤ)))
    (hok : Genome.mutate_add_conn g cfg o m w = Except.ok res) :
    ∃ last, g.network.node_genes.getLast? = some last ∧
    ∃ res2, add_conn_loop g.network (add_conn_sI g) (add_conn_eIs g last) o 0 m
        = Except.ok res2 ∧
      ((res2.1 = none ∧ res = (g, (false, (-1, -1)))) ∨
       (∃ s e, res2.1 = some (s, e) ∧
         res = ({ g with network := g.network.add_conn (mkConnGene s e 1) w },
           (true, (s, e))))) := by
  unfold Genome.mutate_add_conn at hok
  split at hok
  · exact absurd hok (by simp)
  · rename_i last hl
    split at hok
    · exact absurd hok (by simp)
    · rename_i res2 hloop
      split at hok
      · rename_i hres2
        exact ⟨last, hl, res2, hloop, Or.inl ⟨hres2, (Except.ok.inj hok).symm⟩⟩
      · rename_i s e hres2
        exact ⟨last, hl, res2, hloop, Or.inr ⟨s, e, hres2, (Except.ok.inj hok).symm⟩⟩

/-- C1 amended: `add_conn`, `change_weight`, `change_threshold`,
`toggle_gene` and `crossover` (given parents satisfying the invariant)
preserve `start > end` for every connection gene; `add_node` does not: its
first new connection `a -> c` always has `start < end`, because the fresh
hidden node `c` receives an index larger than every existing node index
(in particular larger than `a`'s). -/
theorem C1_start_gt_end_amended :
    (∀ (g : Genome) (cfg : Configs) (r : ℕ) (w : ℚ) (gp : Genome),
        Genome.mutate_change_weight g cfg r w = Except.ok gp →
        netConnsOk g.network → netConnsOk gp.network) ∧
    (∀ (g : Genome) (cfg : Configs) (r : ℕ) (b : ℚ) (gp : Genome),
        Genome.mutate_change_threshold g cfg r b = Except.ok gp →
        netConnsOk g.network → netConnsOk gp.network) ∧
    (∀ (g : Genome) (r : ℕ) (gp : Genome),
        Genome.mutate_toggle_gene g r = Except.ok gp →
        netConnsOk g.network → netConnsOk gp.network) ∧
    (∀ (g : Genome) (cfg : Configs) (o : ℕ → ℕ) (m : ℕ) (w : ℚ)
        (res : Genome × (Bool × (ℤ × ℤ))),
        Genome.mutate_add_conn g cfg o m w = Except.ok res →
        netConnsOk g.network → netConnsOk res.1.network) ∧
    (∀ (first second : Genome) (flip nflip : ℕ → Bool) (child : Genome),
        crossover first second flip nflip = Except.ok child →
        netConnsOk first.network → netConnsOk second.network →
        netConnsOk child.network) ∧
    (∀ (g : Genome) (cfg : Configs) (r : ℕ) (w1 w2 : ℚ),
        g.network.conn_genes ≠ [] →
        (∀ c ∈ g.network.conn_genes, c.start < (g.network.node_genes.length : ℤ)) →
        ∃ gp pairs, Genome.mutate_add_node g cfg r w1 w2 = Except.ok (gp, some pairs) ∧
          ∃ c ∈ gp.network.conn_genes, c.start < c.«end») := by
  refine ⟨?_, ?_, ?_, ?_, ?_, ?_⟩
  · intro g cfg r w gp hok H
    unfold Genome.mutate_change_weight at hok
    by_cases hlen : g.network.conn_genes.length = 0
    · rw [if_pos hlen] at hok
      obtain rfl := Except.ok.inj hok
      exact H
    · rw [if_neg hlen] at hok
      unfold np_randint at hok
      rw [if_neg hlen] at hok
      have hok2 : Except.ok
          ({ g with network := g.network.set_weight (r % g.network.conn_genes.length) w })
          = Except.ok gp := hok
      obtain rfl := Except.ok.inj hok2
      exact netConnsOk_set_weight g.network _ w H
  · intro g cfg r b gp hok H
    unfold Genome.mutate_change_threshold at hok
    by_cases hlen : g.network.node_genes.length = 0
    · unfold np_randint at hok
      rw [if_pos hlen] at hok
      exact absurd hok (by simp)
    · unfold np_randint at hok
      rw [if_neg hlen] at hok
      have hok2 : Except.ok ({ g with network := { g.network with
          node_genes := setNodeBias g.network.node_genes
            (r % g.network.node_genes.length) b } }) = Except.ok gp := hok
      obtain rfl := Except.ok.inj hok2
      exact H
  · intro g r gp hok H
    unfold Genome.mutate_toggle_gene at hok
    by_cases hlen : g.network.conn_genes.length = 0
    · rw [if_pos hlen] at hok
      obtain rfl := Except.ok.inj hok
      exact H
    · rw [if_neg hlen] at hok
      unfold np_randint at hok
      rw [if_neg hlen] at hok
      have hok2 : (if (g.network.conn_genes.getD
            (r % g.network.conn_genes.length) dfltConn).enabled then
          Except.ok ({ g with network :=
            g.network.disable_conn (r % g.network.conn_genes.length) })
        else
          Except.ok ({ g with network :=
            g.network.enable_conn (r % g.network.conn_genes.length) }))
          = Except.ok gp := hok
      by_cases he : (g.network.conn_genes.getD
          (r % g.network.conn_genes.length) dfltConn).enabled
      · rw [if_pos he] at hok2
        obtain rfl := Except.ok.inj hok2
        exact netConnsOk_disable g.network _ H
      · rw [if_neg he] at hok2
        obtain rfl := Except.ok.inj hok2
        exact netConnsOk_enable g.network _ H
  · intro g cfg o m w res hok H
    obtain ⟨last, hl, res2, hloop, hcase⟩ :=
      mutate_add_conn_ok_destruct g cfg o m w res hok
    rcases hcase with ⟨-, rfl⟩ | ⟨s, e, hres2, rfl⟩
    · exact H
    · intro x hx
      rcases List.mem_append.mp hx with h1 | h1
      · exact H x h1
      · have hx2 : x = { mkConnGene s e 1 with weight := w } := List.mem_singleton.mp h1
        subst hx2
        exact add_conn_loop_valid g.network (add_conn_sI g) (add_conn_eIs g last)
          o m 0 res2 s e hloop hres2
  · intro first second flip nflip child hok H1 H2
    obtain ⟨final_nodes, -, hchild⟩ := crossover_ok_destruct first second flip nflip child hok
    have hconns : child.network.conn_genes = (crossover_cm first second flip).1 := by
      rw [hchild]
      rfl
    intro x hx
    rw [hconns] at hx
    unfold crossover_cm at hx
    rcases crossover_conn_fold_mem first second (crossover_fit first second) flip
        (crossover_fit_eq_or first second) (crossover_innovs first second) ([], -1) x hx
      with h1 | h1 | h1
    · cases h1
    · exact H1 x h1
    · exact H2 x h1
  · intro g cfg r w1 w2 h hstart
    have hlen : ¬ g.network.conn_genes.length = 0 := by
      simpa [List.length_eq_zero] using h
    rw [mutate_add_node_eq g cfg r w1 w2 hlen]
    refine ⟨_, _, rfl, ?_⟩
    refine ⟨_, List.mem_append.mpr (Or.inl (List.mem_append.mpr
      (Or.inr (List.mem_singleton.mpr rfl)))), ?_⟩
    have hmem : g.network.conn_genes.getD (r % g.network.conn_genes.length) dfltConn
        ∈ g.network.conn_genes :=
      List.getElem?_mem (conn_pick_some g r hlen)
    simpa [mkConnGene] using hstart _ hmem

/-- Witness for C1's amended theorem: the invariant is preserved by
`change_weight` on `gSimple`, and `add_node` on `gSimple` produces a
connection with `start < end`. -/
theorem C1_start_gt_end_amended_witness :
    (∃ gp, Genome.mutate_change_weight gSimple cfgUnit 0 7 = Except.ok gp ∧
      netConnsOk gp.network) ∧
    (∃ gp pairs, Genome.mutate_add_node gSimple cfgUnit 0 5 5 = Except.ok (gp, some pairs) ∧
      ∃ c ∈ gp.network.conn_genes, c.start < c.«end») := by
  constructor
  · refine ⟨_, rfl, ?_⟩
    exact C1_start_gt_end_amended.1 gSimple cfgUnit 0 7 _ rfl
      (by unfold netConnsOk; decide)
  · exact C1_start_gt_end_amended.2.2.2.2.2 gSimple cfgUnit 0 5 5 (by decide) (by decide)

/-- The dense creation-order node layout of the spec: the node gene at list
position `i` carries index `i`. -/
def denseNodes (n : Network) : Prop :=
  ∀ i : ℕ, i < n.node_genes.length → (n.node_genes.getD i dfltNode).index = (i : ℤ)

/-- Every connection's end index refers to an existing node of its own
topology. -/
def endsWithin (n : Network) : Prop :=
  ∀ c ∈ n.conn_genes, c.«end» < (n.node_genes.length : ℤ)

/-- Connection genes with equal innovation numbers describe the same
start-to-end topology (the spec's innovation-number semantics); only the
shared end index is needed here. -/
def matchingEndsAgree (f s : Network) : Prop :=
  ∀ c1 ∈ f.conn_genes, ∀ c2 ∈ s.conn_genes, c1.innov = c2.innov → c1.«end» = c2.«end»

/-- In-range positional lookup written through `getD`. -/
theorem getD_some_of_lt {α : Type} (l : List α) (i : ℕ) (d : α)
    (h : i < l.length) : l[i]? = some (l.getD i d) := by
  rw [List.getD_eq_getElem?_getD, List.getElem?_eq_getElem h]
  rfl

/-- Under the dense layout, a topology has a node with index `i` exactly
when `i` is below its node count. -/
theorem dense_has_node_iff (n : Network) (hd : denseNodes n) (i : ℕ) :
    n.has_node (i : ℤ) = true ↔ i < n.node_genes.length := by
  unfold Network.has_node
  rw [List.any_eq_true]
  constructor
  · rintro ⟨nd, hnd, hidx⟩
    have hidx2 : nd.index = (i : ℤ) := of_decide_eq_true hidx
    obtain ⟨j, hj, hget⟩ := List.mem_iff_getElem.mp hnd
    have hdj := hd j hj
    have hgd : n.node_genes.getD j dfltNode = nd := by
      rw [List.getD_eq_getElem?_getD, List.getElem?_eq_getElem hj]
      exact hget
    rw [hgd, hidx2] at hdj
    have hij : i = j := by exact_mod_cast hdj
    omega
  · intro hi
    refine ⟨n.node_genes.getD i dfltNode, ?_, ?_⟩
    · exact List.getElem?_mem (getD_some_of_lt n.node_genes i dfltNode hi)
    · exact decide_eq_true (hd i hi)

theorem setNodeBias_length (nodes : List NodeGene) (i : ℕ) (b : ℚ) :
    (setNodeBias nodes i b).length = nodes.length := by
  unfold setNodeBias
  cases h : nodes[i]? with
  | none => rfl
  | some nd => simp

theorem setNodeBias_getElem_ne (nodes : List NodeGene) (i : ℕ) (b : ℚ) (idx : ℕ)
    (hne : i ≠ idx) : (setNodeBias nodes i b)[idx]? = nodes[idx]? := by
  unfold setNodeBias
  cases h : nodes[i]? with
  | none => rfl
  | some nd => exact List.getElem?_set_ne hne

/-- One bias-loop step preserves the node-list length. -/
theorem crossover_node_step_length (first second fit : Genome) (nflip : ℕ → Bool)
    (nodes : List NodeGene) (idx : ℕ) (nodes1 : List NodeGene)
    (h : crossover_node_step first second fit nflip nodes idx = Except.ok nodes1) :
    nodes1.length = nodes.length := by
  unfold crossover_node_step at h
  split at h
  · split at h
    · obtain rfl := Except.ok.inj h
      exact setNodeBias_length nodes idx _
    · exact absurd h (by simp)
  · split at h
    · split at h
      · obtain rfl := Except.ok.inj h
        exact setNodeBias_length nodes idx _
      · split at h
        · obtain rfl := Except.ok.inj h
          exact setNodeBias_length nodes idx _
        · exact absurd h (by simp)
    · obtain rfl := Except.ok.inj h
      rfl

/-- One bias-loop step leaves every other position untouched. -/
theorem crossover_node_step_preserve (first second fit : Genome) (nflip : ℕ → Bool)
    (nodes : List NodeGene) (j : ℕ) (nodes1 : List NodeGene) (idx : ℕ) (hne : j ≠ idx)
    (h : crossover_node_step first second fit nflip nodes j = Except.ok nodes1) :
    nodes1[idx]? = nodes[idx]? := by
  unfold crossover_node_step at h
  split at h
  · split at h
    · obtain rfl := Except.ok.inj h
      exact setNodeBias_getElem_ne nodes j _ idx hne
    · exact absurd h (by simp)
  · split at h
    · split at h
      · obtain rfl := Except.ok.inj h
        exact setNodeBias_getElem_ne nodes j _ idx hne
      · split at h
        · obtain rfl := Except.ok.inj h
          exact setNodeBias_getElem_ne nodes j _ idx hne
        · exact absurd h (by simp)
    · obtain rfl := Except.ok.inj h
      rfl

/-- The bias loop preserves the node-list length. -/
theorem crossover_node_loop_length (first second fit : Genome) (nflip : ℕ → Bool) :
    ∀ (l : List ℕ) (nodes final : List NodeGene),
    crossover_node_loop first second fit nflip nodes l = Except.ok final →
    final.length = nodes.length := by
  intro l
  induction l with
  | nil =>
    intro nodes final h
    obtain rfl := Except.ok.inj h
    rfl
  | cons j tl ih =>
    intro nodes final h
    unfold crossover_node_loop at h
    split at h
    · exact absurd h (by simp)
    · rename_i nodes1 hstep
      have h1 := crossover_node_step_length first second fit nflip nodes j nodes1 hstep
      have h2 := ih nodes1 final h
      omega

/-- The bias loop leaves every position outside the visited index list
untouched. -/
theorem crossover_node_loop_preserve (first second fit : Genome) (nflip : ℕ → Bool) :
    ∀ (l : List ℕ) (nodes final : List NodeGene) (idx : ℕ), idx ∉ l →
    crossover_node_loop first second fit nflip nodes l = Except.ok final →
    final[idx]? = nodes[idx]? := by
  intro l
  induction l with
  | nil =>
    intro nodes final idx _ h
    obtain rfl := Except.ok.inj h
    rfl
  | cons j tl ih =>
    intro nodes final idx hnin h
    unfold crossover_node_loop at h
    split at h
    · exact absurd h (by simp)
    · rename_i nodes1 hstep
      have hne : j ≠ idx := fun hji => hnin (hji ▸ List.mem_cons_self j tl)
      have h1 := ih nodes1 final idx (fun hm => hnin (List.mem_cons_of_mem j hm)) h
      rw [h1]
      exact crossover_node_step_preserve first second fit nflip nodes j nodes1 idx hne hstep

/-- When exactly one parent has the node at `idx` and the fitter parent's
node list reaches position `idx`, the bias loop writes the fitter parent's
bias there — and with the dense layout the fitter parent is necessarily the
parent that has the node. -/
theorem crossover_node_loop_bias (first second fit : Genome) (nflip : ℕ → Bool)
    (idx : ℕ)
    (hone : ¬ first.network.has_node (idx : ℤ) = second.network.has_node (idx : ℤ))
    (hltfit : idx < fit.network.node_genes.length) :
    ∀ (l : List ℕ) (nodes final : List NodeGene),
      crossover_node_loop first second fit nflip nodes l = Except.ok final →
      idx ∈ l → l.Nodup → idx < nodes.length →
      ∃ nd fnode, fit.network.node_genes[idx]? = some fnode ∧
        final[idx]? = some nd ∧ nd.bias = fnode.bias := by
  intro l
  induction l with
  | nil =>
    intro nodes final _ hmem
    cases hmem
  | cons j tl ih =>
    intro nodes final h hmem hnd hlen2
    unfold crossover_node_loop at h
    split at h
    · exact absurd h (by simp)
    · rename_i nodes1 hstep
      by_cases hje : j = idx
      · subst hje
        have hb : (first.network.has_node (j : ℤ) && second.network.has_node (j : ℤ))
            = false := by
          cases hf1 : first.network.has_node (j : ℤ) <;>
            cases hf2 : second.network.has_node (j : ℤ) <;> simp_all
        have hne2 : (first.network.has_node (j : ℤ) != second.network.has_node (j : ℤ))
            = true := by
          cases hf1 : first.network.has_node (j : ℤ) <;>
            cases hf2 : second.network.has_node (j : ℤ) <;> simp_all
        unfold crossover_node_step at hstep
        rw [if_neg (by rw [hb]; exact Bool.false_ne_true)] at hstep
        rw [if_pos hne2] at hstep
        have hfs : fit.network.node_genes[j]?
            = some (fit.network.node_genes.getD j dfltNode) :=
          getD_some_of_lt fit.network.node_genes j dfltNode hltfit
        rw [hfs] at hstep
        have hstep2 : Except.ok (setNodeBias nodes j
            (fit.network.node_genes.getD j dfltNode).bias) = Except.ok nodes1 := hstep
        obtain rfl := Except.ok.inj hstep2
        have hpres := crossover_node_loop_preserve first second fit nflip tl _ final j
          (List.nodup_cons.mp hnd).1 h
        have hnsome : nodes[j]? = some (nodes.getD j dfltNode) :=
          getD_some_of_lt nodes j dfltNode hlen2
        have hset : (setNodeBias nodes j (fit.network.node_genes.getD j dfltNode).bias)[j]?
            = some { nodes.getD j dfltNode with
                bias := (fit.network.node_genes.getD j dfltNode).bias } := by
          unfold setNodeBias
          rw [hnsome]
          exact List.getElem?_set_self hlen2
        refine ⟨{ nodes.getD j dfltNode with
            bias := (fit.network.node_genes.getD j dfltNode).bias },
          fit.network.node_genes.getD j dfltNode, hfs, ?_, rfl⟩
        rw [hpres, hset]
      · have hmem2 : idx ∈ tl := by
          rcases List.mem_cons.mp hmem with h1 | h1
          · exact absurd h1.symm hje
          · exact h1
        have hlen3 : idx < nodes1.length := by
          rw [crossover_node_step_length first second fit nflip nodes j nodes1 hstep]
          exact hlen2
        exact ih nodes1 final h hmem2 (List.nodup_cons.mp hnd).2 hlen3

/-- If every gene the alignment fold can append has its end index below
`B`, the tracked maximum stays below `B`. -/
theorem crossover_conn_fold_max_lt (first second fit : Genome) (flip : ℕ → Bool) (B : ℤ)
    (hf : ∀ c ∈ first.network.conn_genes,
      second.network.has_weight c.innov = true → c.«end» < B)
    (hs : ∀ c ∈ second.network.conn_genes,
      first.network.has_weight c.innov = true → c.«end» < B)
    (hfitB : ∀ c ∈ fit.network.conn_genes, c.«end» < B) :
    ∀ (l : List ℕ) (st : List ConnectionGene × ℤ), st.2 < B →
      (l.foldl (crossover_conn_step first second fit flip) st).2 < B := by
  intro l
  induction l with
  | nil => exact fun st h => h
  | cons i tl ih =>
    intro st hst
    simp only [List.foldl_cons]
    apply ih
    rcases crossover_conn_step_cases first second fit flip st i with he | ⟨gene, he, hi, hsrc⟩
    · rw [he]
      exact hst
    · rw [he]
      have hgend : gene.«end» < B := by
        rcases hsrc with ⟨h1, h2, hg | hg⟩ | hg
        · exact hf gene hg (by rw [hi]; exact h2)
        · exact hs gene hg (by rw [hi]; exact h1)
        · exact hfitB gene hg
      by_cases hgt : gene.«end» > st.2
      · rw [if_pos hgt]
        exact hgend
      · rw [if_neg hgt]
        exact hst

/-- C5: in crossover's node-materialization step, for every hidden node
index at which exactly one (well-formed) parent has a node gene, the
child's node at that index inherits that parent's bias.  Well-formedness is
the spec's own data-model invariants: dense creation-order node indices,
connection ends referring to existing nodes, and equal-innovation genes
sharing their end index.  Under these the fitter parent always reaches the
index, so the never-true fallback comparison of genome.py line 214 is
unreachable and the inheriting parent is exactly the one that has the
node. -/
theorem C5_single_parent_node_bias (first second : Genome) (flip nflip : ℕ → Bool)
    (idx : ℕ) (child : Genome)
    (hd1 : denseNodes first.network) (hd2 : denseNodes second.network)
    (hew1 : endsWithin first.network) (hew2 : endsWithin second.network)
    (hag : matchingEndsAgree first.network second.network)
    (h : crossover first second flip nflip = Except.ok child)
    (hhid : first.network.num_in + first.network.num_out ≤ idx)
    (hlt : idx < child.network.node_genes.length)
    (hone : first.network.has_node (idx : ℤ) ≠ second.network.has_node (idx : ℤ)) :
    ∃ nd pd, child.network.node_genes[idx]? = some nd ∧
      (if first.network.has_node (idx : ℤ) then first
       else second).network.node_genes[idx]? = some pd ∧
      nd.bias = pd.bias := by
  obtain ⟨final_nodes, hloop, hchild⟩ := crossover_ok_destruct first second flip nflip child h
  have hnodes : child.network.node_genes = final_nodes := by
    rw [hchild]
    rfl
  have hfit12 := crossover_fit_eq_or first second
  have hdfit : denseNodes (crossover_fit first second).network := by
    rcases hfit12 with hf | hf
    · rw [hf]; exact hd1
    · rw [hf]; exact hd2
  have hlen0 : final_nodes.length = (crossover_node_genes0 first second flip).length :=
    crossover_node_loop_length first second (crossover_fit first second) nflip
      (crossover_idxs first second flip) (crossover_node_genes0 first second flip)
      final_nodes hloop
  have hbase : (crossover_base_nodes first).length
      = first.network.num_out + first.network.num_in := by
    simp [crossover_base_nodes]
  have hng0 : (crossover_node_genes0 first second flip).length
      = (crossover_base_nodes first).length +
        ((crossover_cm first second flip).2
          - ((crossover_base_nodes first).length : ℤ) + 1).toNat := by
    simp [crossover_node_genes0]
  have hmax : (crossover_cm first second flip).2
      < ((crossover_fit first second).network.node_genes.length : ℤ) := by
    unfold crossover_cm
    apply crossover_conn_fold_max_lt
    · intro c hc hw
      rcases hfit12 with hf | hf
      · rw [hf]
        exact hew1 c hc
      · rw [hf]
        have hex : ∃ c2 ∈ second.network.conn_genes, decide (c2.innov = c.innov) = true := by
          simpa [Network.has_weight, Network.get_conn_gene, List.find?_isSome] using hw
        obtain ⟨c2, hc2, hc2i⟩ := hex
        have hinn : c.innov = c2.innov := (of_decide_eq_true hc2i).symm
        have hee : c.«end» = c2.«end» := hag c hc c2 hc2 hinn
        rw [hee]
        exact hew2 c2 hc2
    · intro c hc hw
      rcases hfit12 with hf | hf
      · rw [hf]
        have hex : ∃ c2 ∈ first.network.conn_genes, decide (c2.innov = c.innov) = true := by
          simpa [Network.has_weight, Network.get_conn_gene, List.find?_isSome] using hw
        obtain ⟨c2, hc2, hc2i⟩ := hex
        have hinn : c2.innov = c.innov := of_decide_eq_true hc2i
        have hee : c2.«end» = c.«end» := hag c2 hc2 c hc hinn
        rw [← hee]
        exact hew1 c2 hc2
      · rw [hf]
        exact hew2 c hc
    · intro c hc
      rcases hfit12 with hf | hf
      · rw [hf] at hc ⊢
        exact hew1 c hc
      · rw [hf] at hc ⊢
        exact hew2 c hc
    · have h0 : (0 : ℤ) ≤ ((crossover_fit first second).network.node_genes.length : ℤ) :=
        Int.ofNat_nonneg _
      omega
  have hlen2 : idx < (crossover_node_genes0 first second flip).length := by
    rw [← hlen0, ← hnodes]
    exact hlt
  have hidxle : (idx : ℤ) ≤ (crossover_cm first second flip).2 := by
    have h1 : idx < (crossover_base_nodes first).length +
        ((crossover_cm first second flip).2
          - ((crossover_base_nodes first).length : ℤ) + 1).toNat := by
      rw [← hng0]
      exact hlen2
    by_cases hz : (crossover_cm first second flip).2
        - ((crossover_base_nodes first).length : ℤ) + 1 ≤ 0
    · rw [Int.toNat_of_nonpos hz] at h1
      rw [hbase] at h1
      omega
    · push_neg at hz
      have htn : ((((crossover_cm first second flip).2
          - ((crossover_base_nodes first).length : ℤ) + 1).toNat : ℕ) : ℤ)
          = (crossover_cm first second flip).2
            - ((crossover_base_nodes first).length : ℤ) + 1 :=
        Int.toNat_of_nonneg (by omega)
      have h2 : (idx : ℤ) < ((crossover_base_nodes first).length : ℤ) +
          ((((crossover_cm first second flip).2
            - ((crossover_base_nodes first).length : ℤ) + 1).toNat : ℕ) : ℤ) := by
        exact_mod_cast h1
      rw [htn] at h2
      omega
  have hltfit : idx < (crossover_fit first second).network.node_genes.length := by
    have hzz : (idx : ℤ) < ((crossover_fit first second).network.node_genes.length : ℤ) :=
      lt_of_le_of_lt hidxle hmax
    exact_mod_cast hzz
  have hmemidx : idx ∈ crossover_idxs first second flip := by
    unfold crossover_idxs
    rw [List.mem_map]
    refine ⟨idx - (first.network.num_in + first.network.num_out), ?_, by omega⟩
    rw [List.mem_range]
    omega
  have hnodup : (crossover_idxs first second flip).Nodup := by
    unfold crossover_idxs
    exact List.Nodup.map (fun a b hab => by omega) (List.nodup_range _)
  obtain ⟨nd, fnode, hfs, hfinal, hbias⟩ :=
    crossover_node_loop_bias first second (crossover_fit first second) nflip idx hone
      hltfit (crossover_idxs first second flip) (crossover_node_genes0 first second flip)
      final_nodes hloop hmemidx hnodup hlen2
  have hfithas : (crossover_fit first second).network.has_node (idx : ℤ) = true :=
    (dense_has_node_iff (crossover_fit first second).network hdfit idx).mpr hltfit
  have hhaver : (if first.network.has_node (idx : ℤ) then first else second)
      = crossover_fit first second := by
    rcases hfit12 with hf | hf
    · rw [hf] at hfithas
      rw [if_pos hfithas, hf]
    · rw [hf] at hfithas
      have hfirst : ¬ first.network.has_node (idx : ℤ) = true := by
        intro hf1
        exact hone (by rw [hf1, hfithas])
      rw [if_neg hfirst, hf]
  refine ⟨nd, fnode, ?_, ?_, hbias⟩
  · rw [hnodes]
    exact hfinal
  · rw [hhaver]
    exact hfs

/-- A fitter parent owning hidden node 2 (bias 7) and a connection ending
there. -/
def gC5a : Genome :=
  { species := 0, fitness := 1,
    network :=
      { num_in := 1, num_out := 1, activation := "relu",
        node_genes := [{ index := 0, ntype := NodeType.OUTPUT, bias := 0 },
                       { index := 1, ntype := NodeType.INPUT, bias := 0 },
                       { index := 2, ntype := NodeType.HIDDEN, bias := 7 }],
        conn_genes := [{ start := 3, «end» := 2, weight := 1, innov := 1, enabled := true }] } }

/-- A less fit parent with no hidden nodes and no connections. -/
def gC5b : Genome :=
  { species := 0, fitness := 0,
    network :=
      { num_in := 1, num_out := 1, activation := "relu",
        node_genes := [{ index := 0, ntype := NodeType.OUTPUT, bias := 0 },
                       { index := 1, ntype := NodeType.INPUT, bias := 0 }],
        conn_genes := [] } }

/-- Witness for C5: only `gC5a` has hidden node 2; the child inherits its
bias 7. -/
theorem C5_single_parent_node_bias_witness :
    ∃ child, crossover gC5a gC5b (fun _ => true) (fun _ => true) = Except.ok child ∧
      ∃ nd pd, child.network.node_genes[2]? = some nd ∧
        (if gC5a.network.has_node ((2 : ℕ) : ℤ) then gC5a
         else gC5b).network.node_genes[2]? = some pd ∧
        nd.bias = pd.bias := by
  refine ⟨_, rfl, ?_⟩
  exact C5_single_parent_node_bias gC5a gC5b (fun _ => true) (fun _ => true) 2 _
    (by unfold denseNodes; decide) (by unfold denseNodes; decide)
    (by unfold endsWithin; decide) (by unfold endsWithin; decide)
    (by unfold matchingEndsAgree; decide) rfl (by decide) (by decide) (by decide)
